import Mathlib

/-!
Verification of the AlertSender job-monitor repository.

This file gives a shallow embedding of the repository's core logic —
the poll/dedup cycle (`pollForJobs`), the seen-set bounding policies,
the token lifecycle (`isTokenExpired`, `refreshAuthToken`,
`extractAuthToken`, `getValidToken`), the fetch retry path
(`fetchAmazonJobs`), the Telegram dispatcher (`sendTelegramAlert`) and
the JWT decoder (`decodeJWT`) — and proves or refutes the specification
claims about them.  Stateful JavaScript is modelled by explicit state
passing; `try`/`catch` is modelled with `Except`/`Option`; sequences of
I/O outcomes (HTTP responses, extraction attempts) are passed in as
lists or streams so that every definition is executable and total.
-/

/-- One job record fetched from the listings API.  The poll/dedup and
dispatch logic reads only `jobId`; all other listing attributes flow
straight to message formatting and are irrelevant to the claims. -/
structure Job where
  jobId : String
  deriving DecidableEq, Repr

/-- The dedup filter of `pollForJobs`:
`jobs.filter(job => !seenJobIds.has(job.jobId))`.
The seen set is modelled as a duplicate-free list of identifiers in
insertion order (a JS `Set` iterates in insertion order). -/
def pollNewJobs (jobs : List Job) (seen : List String) : List Job :=
  jobs.filter (fun j => !(seen.contains j.jobId))

/-- `newJobs.forEach(job => seenJobIds.add(job.jobId))`: JS `Set.add`
appends a key at the end if absent and is a no-op if present. -/
def addSeen (seen : List String) (ids : List String) : List String :=
  ids.foldl (fun s i => if s.contains i then s else s ++ [i]) seen

/-- Result of one poll cycle: the updated seen set and the batch of
jobs handed to the alert dispatcher ("emitted as new"). -/
structure PollOut where
  seen : List String
  emitted : List Job
  deriving DecidableEq, Repr

/-- Pure core of `pollForJobs` (auto-token-monitor.js lines 641-668)
after the fetch returned `jobs`: if the batch is empty the tick
returns early; otherwise the unseen subset is computed, its ids are
added to the seen set, and it is handed to the dispatcher. -/
def pollForJobsCore (jobs : List Job) (seen : List String) : PollOut :=
  if jobs.isEmpty then ⟨seen, []⟩
  else if (pollNewJobs jobs seen).isEmpty then ⟨seen, []⟩
  else ⟨addSeen seen ((pollNewJobs jobs seen).map Job.jobId), pollNewJobs jobs seen⟩

/-- Capacity trim of the seen set (src/unnamed/part_000 lines 473-477):
`if (seenJobIds.size > 1000) seenJobIds = new Set(Array.from(seenJobIds).slice(-500))`.
`slice(-500)` keeps the last 500 entries, i.e. the most recent. -/
def trimSeen (s : List String) : List String :=
  if s.length > 1000 then s.drop (s.length - 500) else s

/-- One poll cycle of the capacity-trim variant (src/unnamed/part_000
lines 453-483): dedup, record the new ids, then trim. -/
def pollCycleTrim (seen : List String) (jobs : List Job) : List String :=
  if jobs.isEmpty then seen
  else if (pollNewJobs jobs seen).isEmpty then seen
  else trimSeen (addSeen seen ((pollNewJobs jobs seen).map Job.jobId))

/-- Body of the 30-second clear timer (auto-token-monitor.js lines
774-778): `seenJobIds.clear()`. -/
def clearSeen (_ : List String) : List String := []

lemma pollForJobsCore_emitted (jobs : List Job) (seen : List String) :
    (pollForJobsCore jobs seen).emitted = pollNewJobs jobs seen := by
  unfold pollForJobsCore
  split
  · rename_i h
    simp only [List.isEmpty_iff] at h
    subst h
    simp [pollNewJobs]
  · split
    · rename_i h
      simp only [List.isEmpty_iff] at h
      exact h.symm
    · rfl

lemma mem_pollNewJobs (jobs : List Job) (seen : List String) (j : Job) :
    j ∈ pollNewJobs jobs seen ↔ (j ∈ jobs ∧ j.jobId ∉ seen) := by
  simp [pollNewJobs, List.mem_filter]

/-- C1: the set of jobs emitted as new by one poll cycle is exactly the
fetched batch minus the previously seen identifiers (B \ S); it is
empty whenever every fetched jobId is already seen; and in the concrete
scenario SeenSet = {J1, J2}, fetched = [J1, J2, J3], the emitted new
set is [J3]. -/
theorem pollForJobs_emits_unseen (jobs : List Job) (seen : List String) :
    (∀ j : Job, j ∈ (pollForJobsCore jobs seen).emitted ↔ (j ∈ jobs ∧ j.jobId ∉ seen))
    ∧ ((∀ j ∈ jobs, j.jobId ∈ seen) → (pollForJobsCore jobs seen).emitted = [])
    ∧ (pollForJobsCore [⟨"J1"⟩, ⟨"J2"⟩, ⟨"J3"⟩] ["J1", "J2"]).emitted = [⟨"J3"⟩] := by
  refine ⟨?_, ?_, by rfl⟩
  · intro j
    rw [pollForJobsCore_emitted]
    exact mem_pollNewJobs jobs seen j
  · intro h
    rw [pollForJobsCore_emitted]
    rw [List.eq_nil_iff_forall_not_mem]
    intro j hj
    rw [mem_pollNewJobs] at hj
    exact hj.2 (h j hj.1)

/-- Witness for C1: with batch [J1] and seen set [J1] every fetched id
is already seen and the emitted set is empty. -/
theorem pollForJobs_emits_unseen_witness :
    (∀ j ∈ [Job.mk "J1"], j.jobId ∈ ["J1"])
    ∧ (pollForJobsCore [Job.mk "J1"] ["J1"]).emitted = [] := by
  have h : ∀ j ∈ [Job.mk "J1"], j.jobId ∈ ["J1"] := by decide
  exact ⟨h, (pollForJobs_emits_unseen [Job.mk "J1"] ["J1"]).2.1 h⟩

lemma trimSeen_length_le (s : List String) : (trimSeen s).length ≤ 1000 := by
  unfold trimSeen
  split
  · simp only [List.length_drop]
    omega
  · omega

lemma pollCycleTrim_length_le (seen : List String) (jobs : List Job)
    (h : seen.length ≤ 1000) : (pollCycleTrim seen jobs).length ≤ 1000 := by
  unfold pollCycleTrim
  split
  · exact h
  · split
    · exact h
    · exact trimSeen_length_le _

/-- C5: the seen set obeys both documented bounding policies.  In the
capacity-trim variant its size never exceeds 1000 at the end of any
number of poll cycles starting from the empty set, and once the
mid-cycle set exceeds 1000 it is pruned to exactly the most recent 500
entries (a suffix of length 500).  In the clear-based variant the set
is empty immediately after each firing of the 30-second clear timer. -/
theorem seenSet_bounded :
    (∀ batches : List (List Job), (batches.foldl pollCycleTrim []).length ≤ 1000)
    ∧ (∀ s : List String, 1000 < s.length →
        (trimSeen s).length = 500 ∧ trimSeen s <:+ s)
    ∧ (∀ s : List String, clearSeen s = []) := by
  refine ⟨?_, ?_, fun _ => rfl⟩
  · intro batches
    have main : ∀ (bs : List (List Job)) (acc : List String), acc.length ≤ 1000 →
        (bs.foldl pollCycleTrim acc).length ≤ 1000 := by
      intro bs
      induction bs with
      | nil => intro acc h; exact h
      | cons b rest ih =>
        intro acc h
        exact ih _ (pollCycleTrim_length_le acc b h)
    exact main batches [] (by simp)
  · intro s h
    constructor
    · unfold trimSeen
      rw [if_pos h]
      simp only [List.length_drop]
      omega
    · unfold trimSeen
      rw [if_pos h]
      exact List.drop_suffix _ _

/-- Witness for C5: a 1001-element seen set is over capacity and is
trimmed to its most recent 500 entries. -/
theorem seenSet_bounded_witness :
    1000 < (List.replicate 1001 "a").length
    ∧ (trimSeen (List.replicate 1001 "a")).length = 500
    ∧ trimSeen (List.replicate 1001 "a") <:+ List.replicate 1001 "a" := by
  have h : 1000 < (List.replicate 1001 "a").length := by
    rw [List.length_replicate]
    omega
  exact ⟨h, (seenSet_bounded.2.1 _ h).1, (seenSet_bounded.2.1 _ h).2⟩

/-! ## Token lifecycle -/

deriving instance DecidableEq for Except

/-- The mutable token globals `currentAuthToken` and `tokenExpiryTime`
(both nullable).  Instants are milliseconds since the epoch, as in JS
`Date.getTime()`. -/
structure TokState where
  tok : Option String
  expiry : Option Int
  deriving DecidableEq, Repr

/-- Guard margin of `isTokenExpired` in auto-token-monitor.js line 419:
refresh 10 minutes before expiry. -/
def guardMarginMs : Int := 10 * 60 * 1000

/-- Guard margin of the `isTokenExpired` variants in
src/unnamed/part_000 (lines 269 and 1516): 5 minutes. -/
def guardMarginV1Ms : Int := 5 * 60 * 1000

/-- `isTokenExpired` (auto-token-monitor.js lines 413-427): true when
either global is missing, or the current time is past expiry minus the
10-minute guard margin. -/
def isTokenExpired (st : TokState) (now : Int) : Bool :=
  match st.tok, st.expiry with
  | some _, some e => decide (now > e - guardMarginMs)
  | _, _ => true

/-- `isTokenExpired` of the part_000 variants (lines 263-270 and
1510-1517), identical but with a 5-minute guard margin. -/
def isTokenExpiredV1 (st : TokState) (now : Int) : Bool :=
  match st.tok, st.expiry with
  | some _, some e => decide (now > e - guardMarginV1Ms)
  | _, _ => true

/-! ## Extraction (auto-token-monitor.js extractAuthToken) -/

/-- Environment of one extraction attempt inside `extractAuthToken`:
the clock at the expiry check, the page-scan outcome (`none` = no JWT
found in storage, which throws; `some (tok, some expMs)` = token whose
JWT claims decode with an `exp` giving expiry instant `expMs`;
`some (tok, none)` = token whose claims are undecodable), and the HTTP
status `testToken` would observe for this candidate (`none` = network
error in the test call). -/
structure ExtractAttempt where
  now : Int
  found : Option (String × Option Int)
  verifyStatus : Option Nat
  deriving DecidableEq, Repr

/-- Observable side effects of the extraction path.  `browserLaunch`
is emitted exactly where the source calls `puppeteer.launch` (inside
`initializeBrowser`); `navigate` is `page.goto`; `wait` is a
`setTimeout` sleep; `testTok` is the live verification call made by
`testToken` together with the status it observed. -/
inductive ExEv where
  | browserLaunch
  | navigate
  | wait (ms : Int)
  | testTok (status : Option Nat)
  deriving DecidableEq, Repr

inductive ExErr where
  | noJwt
  | retriesExhausted
  | outOfAttempts
  deriving DecidableEq, Repr

structure ExtractOut where
  events : List ExEv
  result : Except ExErr (String × Int)
  deriving DecidableEq, Repr

/-- `const maxRetries = 3` in extractAuthToken. -/
def extractMaxRetries : Nat := 3

/-- The near-expiry window checked at line 337: `timeLeft < 5 * 60 * 1000`. -/
def nearExpiryWindowMs : Int := 5 * 60 * 1000

/-- `extractAuthToken(retryCount)` (auto-token-monitor.js lines
198-381).  Each attempt navigates to the hiring page and waits 15 s,
then scans storage.  No JWT found throws.  A decodable token that is
already expired, or that expires within 5 minutes, causes a 30-second
wait and a recursive retry while `retryCount < maxRetries`; at the
final retry an expired token still throws but a soon-to-expire token
is accepted as a last resort.  Accepted tokens with decoded expiry are
installed and then passed to `testToken`, whose outcome is ignored; a
token with undecodable claims is installed with an assumed 59-minute
expiry and is not tested at all.  The result carries the new values of
`currentAuthToken` and `tokenExpiryTime`. -/
def extractGo : Nat → List ExtractAttempt → ExtractOut
  | _, [] => ⟨[], .error .outOfAttempts⟩
  | rc, a :: rest =>
    match a.found with
    | none => ⟨[.navigate, .wait 15000], .error .noJwt⟩
    | some (tok, some expMs) =>
      if expMs - a.now ≤ 0 then
        if rc < extractMaxRetries then
          ⟨[.navigate, .wait 15000, .wait 30000] ++ (extractGo (rc + 1) rest).events,
            (extractGo (rc + 1) rest).result⟩
        else ⟨[.navigate, .wait 15000], .error .retriesExhausted⟩
      else if expMs - a.now < nearExpiryWindowMs then
        if rc < extractMaxRetries then
          ⟨[.navigate, .wait 15000, .wait 30000] ++ (extractGo (rc + 1) rest).events,
            (extractGo (rc + 1) rest).result⟩
        else ⟨[.navigate, .wait 15000, .testTok a.verifyStatus], .ok (tok, expMs)⟩
      else ⟨[.navigate, .wait 15000, .testTok a.verifyStatus], .ok (tok, expMs)⟩
    | some (tok, none) => ⟨[.navigate, .wait 15000], .ok (tok, a.now + 59 * 60 * 1000)⟩

/-- `refreshAuthToken` (auto-token-monitor.js lines 430-446): launch a
browser only when none exists, then run `extractAuthToken` from retry
count 0.  The source consults no in-flight flag, lock, or shared
promise before starting the extraction. -/
def refreshAuthTokenRun (browserUp : Bool) (attempts : List ExtractAttempt) : ExtractOut :=
  ⟨(if browserUp then [] else [ExEv.browserLaunch]) ++ (extractGo 0 attempts).events,
    (extractGo 0 attempts).result⟩

def isNavEv : ExEv → Bool
  | .navigate => true
  | _ => false

def isWait30Ev : ExEv → Bool
  | .wait ms => decide (ms = 30000)
  | _ => false

def isLaunchEv : ExEv → Bool
  | .browserLaunch => true
  | _ => false

def countNavE (evs : List ExEv) : Nat := evs.countP isNavEv

def countWait30 (evs : List ExEv) : Nat := evs.countP isWait30Ev

def countLaunch (evs : List ExEv) : Nat := evs.countP isLaunchEv

def isTestEv : ExEv → Bool
  | .testTok _ => true
  | _ => false

def countTestTok (evs : List ExEv) : Nat := evs.countP isTestEv

/-! ## The fetch/retry path (auto-token-monitor.js fetchAmazonJobs) -/

/-- What `response.json()` and the subsequent field checks yield for a
2xx response: a JSON parse failure (throws), a GraphQL `errors` array
(throws), a response missing `data.searchJobCardsByLocation` (returns
`[]`), or a job-card list. -/
inductive BodyOut where
  | parseError
  | gqlErrors (msg : String)
  | noData
  | jobCards (jobs : List Job)
  deriving DecidableEq, Repr

/-- Outcome of one `fetch` of the listings endpoint. -/
inductive ApiResp where
  | netError
  | http (status : Nat) (body : BodyOut)
  deriving DecidableEq, Repr

inductive FErr where
  | refreshFailed
  | noAuthToken
  | net
  | parse
  | httpStatus (s : Nat)
  | apiError (msg : String)
  | outOfResponses
  deriving DecidableEq, Repr

/-- Observable events of one tick's fetch path: each token refresh
(with its success flag) and each listings request together with the
bearer token and recorded expiry in force when it was sent. -/
inductive FEv where
  | refresh (ok : Bool)
  | fetchSend (tok : String) (expiry : Option Int)
  deriving DecidableEq, Repr

structure FetchOut where
  events : List FEv
  final : TokState
  result : Except FErr (List Job)
  deriving DecidableEq, Repr

/-- The prologue of `fetchAmazonJobs` (lines 453-457): when
`isTokenExpired()` holds, `refreshAuthToken()` runs; on its success the
token globals are replaced, on its failure the error propagates to the
tick's catch.  `refs` is the stream of refresh outcomes and `rIdx` the
index of the next one. -/
def fetchStep1 (now : Int) (refs : Nat → Except Unit (String × Int))
    (st : TokState) (rIdx : Nat) : List FEv × TokState × Nat × Option FErr :=
  if isTokenExpired st now then
    match refs rIdx with
    | .ok (t, e) => ([FEv.refresh true], ⟨some t, some e⟩, rIdx + 1, none)
    | .error _ => ([FEv.refresh false], st, rIdx + 1, some FErr.refreshFailed)
  else ([], st, rIdx, none)

/-- `fetchAmazonJobs` (auto-token-monitor.js lines 449-541), body
before its catch.  After the prologue, a missing token throws; the
request is sent and one response consumed.  2xx responses are parsed
(GraphQL errors and parse failures throw, a missing data node returns
`[]`).  A 401 refreshes the token and re-enters the whole function
recursively with no retry bound; a 403 (and any other non-2xx status)
throws without any refresh or retry.  The response list bounds how far
the recursion can be observed; exhausting it yields the artificial
`outOfResponses` marker. -/
def fetchGo (now : Int) (refs : Nat → Except Unit (String × Int)) :
    TokState → Nat → List ApiResp → FetchOut
  | st, rIdx, [] =>
    match fetchStep1 now refs st rIdx with
    | (ev1, st1, _, some err) => ⟨ev1, st1, .error err⟩
    | (ev1, st1, _, none) =>
      match st1.tok with
      | none => ⟨ev1, st1, .error .noAuthToken⟩
      | some _ => ⟨ev1, st1, .error .outOfResponses⟩
  | st, rIdx, r :: rest =>
    match fetchStep1 now refs st rIdx with
    | (ev1, st1, _, some err) => ⟨ev1, st1, .error err⟩
    | (ev1, st1, rIdx1, none) =>
      match st1.tok with
      | none => ⟨ev1, st1, .error .noAuthToken⟩
      | some tok =>
        match r with
        | .netError => ⟨ev1 ++ [.fetchSend tok st1.expiry], st1, .error .net⟩
        | .http status body =>
          if 200 ≤ status ∧ status < 300 then
            match body with
            | .parseError => ⟨ev1 ++ [.fetchSend tok st1.expiry], st1, .error .parse⟩
            | .gqlErrors m => ⟨ev1 ++ [.fetchSend tok st1.expiry], st1, .error (.apiError m)⟩
            | .noData => ⟨ev1 ++ [.fetchSend tok st1.expiry], st1, .ok []⟩
            | .jobCards jobs => ⟨ev1 ++ [.fetchSend tok st1.expiry], st1, .ok jobs⟩
          else if status = 401 then
            match refs rIdx1 with
            | .ok (t, e) =>
              ⟨ev1 ++ [.fetchSend tok st1.expiry, .refresh true]
                  ++ (fetchGo now refs ⟨some t, some e⟩ (rIdx1 + 1) rest).events,
                (fetchGo now refs ⟨some t, some e⟩ (rIdx1 + 1) rest).final,
                (fetchGo now refs ⟨some t, some e⟩ (rIdx1 + 1) rest).result⟩
            | .error _ =>
              ⟨ev1 ++ [.fetchSend tok st1.expiry, .refresh false], st1, .error .refreshFailed⟩
          else ⟨ev1 ++ [.fetchSend tok st1.expiry], st1, .error (.httpStatus status)⟩

/-- The catch of `fetchAmazonJobs` (lines 537-540): any error yields an
empty job list. -/
def fetchAmazonJobsRun (now : Int) (refs : Nat → Except Unit (String × Int))
    (st : TokState) (resps : List ApiResp) : List Job :=
  match (fetchGo now refs st 0 resps).result with
  | .ok jobs => jobs
  | .error _ => []

/-- One full poll tick (`pollForJobs`, lines 641-668): fetch with the
catch in place, then dedup and emit. -/
def pollTick (now : Int) (refs : Nat → Except Unit (String × Int))
    (st : TokState) (resps : List ApiResp) (seen : List String) : PollOut :=
  pollForJobsCore (fetchAmazonJobsRun now refs st resps) seen

def isSendEv : FEv → Bool
  | .fetchSend _ _ => true
  | _ => false

def isRefreshEv : FEv → Bool
  | .refresh _ => true
  | _ => false

def countSends (evs : List FEv) : Nat := evs.countP isSendEv

def countRefreshes (evs : List FEv) : Nat := evs.countP isRefreshEv


/-- Boolean error test for `Except` (JS: did the body throw). -/
def exceptFailed {ε α : Type} : Except ε α → Bool
  | .error _ => true
  | .ok _ => false

/-! ## C7: error containment in the poll tick -/

/-- C7: any network, HTTP, GraphQL, or parse error thrown inside a
tick's fetch is caught: the fetch step then yields an empty job list
and the poll cycle ends early with the seen set unchanged and nothing
emitted; the tick itself returns normally rather than terminating the
process. -/
theorem pollTick_error_contained (now : Int) (refs : Nat → Except Unit (String × Int))
    (st : TokState) (resps : List ApiResp) (seen : List String) :
    exceptFailed (fetchGo now refs st 0 resps).result = true →
      fetchAmazonJobsRun now refs st resps = []
      ∧ pollTick now refs st resps seen = ⟨seen, []⟩ := by
  intro h
  have hj : fetchAmazonJobsRun now refs st resps = [] := by
    unfold fetchAmazonJobsRun
    cases hres : (fetchGo now refs st 0 resps).result with
    | ok v => rw [hres] at h; simp [exceptFailed] at h
    | error e => rfl
  refine ⟨hj, ?_⟩
  unfold pollTick
  rw [hj]
  rfl

/-- Witness for C7: a network error during the fetch leaves the seen
set unchanged and emits nothing. -/
theorem pollTick_error_contained_witness :
    exceptFailed (fetchGo 0 (fun _ => Except.ok ("T", (10000000 : Int)))
        ⟨some "T", some 10000000⟩ 0 [.netError]).result = true
    ∧ fetchAmazonJobsRun 0 (fun _ => Except.ok ("T", (10000000 : Int)))
        ⟨some "T", some 10000000⟩ [.netError] = []
    ∧ pollTick 0 (fun _ => Except.ok ("T", (10000000 : Int)))
        ⟨some "T", some 10000000⟩ [.netError] ["X"] = ⟨["X"], []⟩ := by
  have h : exceptFailed (fetchGo 0 (fun _ => Except.ok ("T", (10000000 : Int)))
      ⟨some "T", some 10000000⟩ 0 [.netError]).result = true := by decide
  have hmain := pollTick_error_contained 0 (fun _ => Except.ok ("T", (10000000 : Int)))
    ⟨some "T", some 10000000⟩ [.netError] ["X"] h
  exact ⟨h, hmain.1, hmain.2⟩

/-! ## C2: the 401/403 retry behaviour of fetchAmazonJobs -/

/-- C2 counterexample: with an API that keeps answering 401 the tick
refetches once per 401 with no bound — here three retries (four
fetches) in one tick, contradicting "retried at most once"; and a 403
aborts the tick with no refresh and no retry at all, contradicting
"a 401/403 response causes the token to be invalidated/refreshed and
the fetch to be retried". -/
theorem fetch401_unbounded_counterexample :
    countSends (fetchGo 0 (fun _ => Except.ok ("T", (10000000 : Int)))
        ⟨some "T0", some 10000000⟩ 0
        [.http 401 .noData, .http 401 .noData, .http 401 .noData,
          .http 200 (.jobCards [])]).events = 4
    ∧ ¬ (countSends (fetchGo 0 (fun _ => Except.ok ("T", (10000000 : Int)))
        ⟨some "T0", some 10000000⟩ 0
        [.http 401 .noData, .http 401 .noData, .http 401 .noData,
          .http 200 (.jobCards [])]).events ≤ 2)
    ∧ (fetchGo 0 (fun _ => Except.ok ("T", (10000000 : Int)))
        ⟨some "T0", some 10000000⟩ 0 [.http 403 .noData]).result
        = .error (.httpStatus 403)
    ∧ countRefreshes (fetchGo 0 (fun _ => Except.ok ("T", (10000000 : Int)))
        ⟨some "T0", some 10000000⟩ 0 [.http 403 .noData]).events = 0 := by
  decide

/-- C2 (amended): within one tick, each 401 response triggers a token
refresh followed by a full recursive refetch, with no retry bound: k
consecutive 401 answers produce k + 1 fetches.  A 403 response aborts
the tick immediately with no refresh and no retry. -/
theorem fetch401_retry_characterization :
    (∀ (k : Nat) (n : Int) (t : String) (e : Int) (b : BodyOut) (js : List Job) (rIdx : Nat),
      isTokenExpired ⟨some t, some e⟩ n = false →
      countSends (fetchGo n (fun _ => Except.ok (t, e)) ⟨some t, some e⟩ rIdx
        (List.replicate k (.http 401 b) ++ [.http 200 (.jobCards js)])).events = k + 1)
    ∧ (∀ (n : Int) (t : String) (e : Int) (b : BodyOut)
        (refs : Nat → Except Unit (String × Int)) (rIdx : Nat),
      isTokenExpired ⟨some t, some e⟩ n = false →
      (fetchGo n refs ⟨some t, some e⟩ rIdx [.http 403 b]).result = .error (.httpStatus 403)
      ∧ countRefreshes (fetchGo n refs ⟨some t, some e⟩ rIdx [.http 403 b]).events = 0
      ∧ countSends (fetchGo n refs ⟨some t, some e⟩ rIdx [.http 403 b]).events = 1) := by
  constructor
  · intro k
    induction k with
    | zero =>
      intro n t e b js rIdx h
      simp [fetchGo, fetchStep1, h, countSends, isSendEv]
    | succ m ih =>
      intro n t e b js rIdx h
      have hrec := ih n t e b js (rIdx + 1) h
      simp only [List.replicate_succ, List.cons_append]
      simp [fetchGo, fetchStep1, h, countSends, isSendEv, List.countP_append] at hrec ⊢
      omega
  · intro n t e b refs rIdx h
    refine ⟨?_, ?_, ?_⟩ <;>
      simp [fetchGo, fetchStep1, h, countSends, countRefreshes, isSendEv, isRefreshEv]

/-- Witness for C2's amended theorem: two 401 answers then a success
give three fetches; one 403 gives one fetch. -/
theorem fetch401_retry_characterization_witness :
    isTokenExpired ⟨some "T", some 10000000⟩ 0 = false
    ∧ countSends (fetchGo 0 (fun _ => Except.ok ("T", (10000000 : Int)))
        ⟨some "T", some 10000000⟩ 0
        (List.replicate 2 (.http 401 .noData) ++ [.http 200 (.jobCards [])])).events = 3
    ∧ (fetchGo 0 (fun _ => Except.ok ("T", (10000000 : Int)))
        ⟨some "T", some 10000000⟩ 0 [.http 403 .noData]).result = .error (.httpStatus 403) := by
  have h : isTokenExpired ⟨some "T", some 10000000⟩ 0 = false := by decide
  refine ⟨h, ?_, ?_⟩
  · exact fetch401_retry_characterization.1 2 0 "T" 10000000 .noData [] 0 h
  · exact (fetch401_retry_characterization.2 0 "T" 10000000 .noData
      (fun _ => Except.ok ("T", (10000000 : Int))) 0 h).1

/-! ## C4: expiry guard -/

lemma fetchGo_events_prefix (now : Int) (refs : Nat → Except Unit (String × Int))
    (st : TokState) (rIdx : Nat) (resps : List ApiResp) :
    ∃ tail, (fetchGo now refs st rIdx resps).events
      = (fetchStep1 now refs st rIdx).1 ++ tail := by
  cases resps with
  | nil =>
    rcases hs : fetchStep1 now refs st rIdx with ⟨ev1, st1, rIdx1, err⟩
    cases err with
    | some e => exact ⟨[], by simp [fetchGo, hs]⟩
    | none =>
      cases ht : st1.tok with
      | none => exact ⟨[], by simp [fetchGo, hs, ht]⟩
      | some tok => exact ⟨[], by simp [fetchGo, hs, ht]⟩
  | cons r rest =>
    rcases hs : fetchStep1 now refs st rIdx with ⟨ev1, st1, rIdx1, err⟩
    cases err with
    | some e => exact ⟨[], by simp [fetchGo, hs]⟩
    | none =>
      cases ht : st1.tok with
      | none => exact ⟨[], by simp [fetchGo, hs, ht]⟩
      | some tok =>
        cases r with
        | netError =>
          exact ⟨[.fetchSend tok st1.expiry], by simp [fetchGo, hs, ht]⟩
        | http status body =>
          by_cases hok : 200 ≤ status ∧ status < 300
          · cases body with
            | parseError => exact ⟨[.fetchSend tok st1.expiry], by simp [fetchGo, hs, ht, hok]⟩
            | gqlErrors m => exact ⟨[.fetchSend tok st1.expiry], by simp [fetchGo, hs, ht, hok]⟩
            | noData => exact ⟨[.fetchSend tok st1.expiry], by simp [fetchGo, hs, ht, hok]⟩
            | jobCards jobs => exact ⟨[.fetchSend tok st1.expiry], by simp [fetchGo, hs, ht, hok]⟩
          · by_cases h4 : status = 401
            · cases hr : refs rIdx1 with
              | ok p =>
                rcases p with ⟨t, e⟩
                refine ⟨[.fetchSend tok st1.expiry, .refresh true]
                  ++ (fetchGo now refs ⟨some t, some e⟩ (rIdx1 + 1) rest).events, ?_⟩
                simp [fetchGo, hs, ht, hok, h4, hr]
              | error u =>
                exact ⟨[.fetchSend tok st1.expiry, .refresh false],
                  by simp [fetchGo, hs, ht, hok, h4, hr]⟩
            · exact ⟨[.fetchSend tok st1.expiry], by simp [fetchGo, hs, ht, hok, h4]⟩

lemma fetchGo_expired_refreshes (now : Int) (refs : Nat → Except Unit (String × Int))
    (st : TokState) (rIdx : Nat) (resps : List ApiResp)
    (h : isTokenExpired st now = true) :
    ∃ b, (fetchGo now refs st rIdx resps).events.head? = some (FEv.refresh b) := by
  obtain ⟨tail, htail⟩ := fetchGo_events_prefix now refs st rIdx resps
  cases hr : refs rIdx with
  | ok p =>
    rcases p with ⟨t, e⟩
    refine ⟨true, ?_⟩
    rw [htail]
    simp [fetchStep1, h, hr]
  | error u =>
    refine ⟨false, ?_⟩
    rw [htail]
    simp [fetchStep1, h, hr]

/-- C4 (amended): `isTokenExpired` returns true exactly when no
token/expiry is stored or the current time is past the recorded expiry
minus the guard margin — the margin is 10 minutes in
auto-token-monitor.js and 5 minutes in the part_000 variants — and any
tick that starts while this holds performs a token refresh before any
fetch is sent.  (The original claim's further assertion that a fetch
never uses a credential past expiry minus the guard margin is refuted
by `tokenGuard_counterexample`: a short-lived last-resort credential is
installed by the refresh and used immediately without a re-check.) -/
theorem tokenExpiry_guard (st : TokState) (now : Int) :
    (isTokenExpired st now = true ↔
      (st.tok = none ∨ st.expiry = none ∨ ∃ e, st.expiry = some e ∧ now > e - guardMarginMs))
    ∧ (isTokenExpiredV1 st now = true ↔
      (st.tok = none ∨ st.expiry = none ∨ ∃ e, st.expiry = some e ∧ now > e - guardMarginV1Ms))
    ∧ (∀ (refs : Nat → Except Unit (String × Int)) (rIdx : Nat) (resps : List ApiResp),
      isTokenExpired st now = true →
      ∃ b, (fetchGo now refs st rIdx resps).events.head? = some (FEv.refresh b)) := by
  refine ⟨?_, ?_, fun refs rIdx resps h => fetchGo_expired_refreshes now refs st rIdx resps h⟩
  · rcases st with ⟨tok, expiry⟩
    cases tok with
    | none => simp [isTokenExpired]
    | some t =>
      cases expiry with
      | none => simp [isTokenExpired]
      | some e => simp [isTokenExpired]
  · rcases st with ⟨tok, expiry⟩
    cases tok with
    | none => simp [isTokenExpiredV1]
    | some t =>
      cases expiry with
      | none => simp [isTokenExpiredV1]
      | some e => simp [isTokenExpiredV1]

/-- Witness for C4's amended theorem: a token expiring in 3 minutes is
treated as expired under both guard margins, and the tick refreshes
before fetching. -/
theorem tokenExpiry_guard_witness :
    isTokenExpired ⟨some "T", some 180000⟩ 0 = true
    ∧ isTokenExpiredV1 ⟨some "T", some 180000⟩ 0 = true
    ∧ ∃ b, (fetchGo 0 (fun _ => Except.ok ("T2", (10000000 : Int)))
        ⟨some "T", some 180000⟩ 0 [.http 200 (.jobCards [])]).events.head?
        = some (FEv.refresh b) := by
  refine ⟨by decide, by decide, ?_⟩
  exact (tokenExpiry_guard ⟨some "T", some 180000⟩ 0).2.2
    (fun _ => Except.ok ("T2", (10000000 : Int))) 0 [.http 200 (.jobCards [])] (by decide)

/-- C4 counterexample: the extraction's final-retry fallback returns a
credential expiring only 3 minutes from now; the tick's refresh
installs it and the fetch immediately sends a request bearing it, even
though now is already past its recorded expiry minus the 10-minute
guard margin — so a credential can be used by a fetch past expiry
minus the guard margin. -/
theorem tokenGuard_counterexample :
    (extractGo 0 (List.replicate 4 ⟨0, some ("T", some 180000), some 200⟩)).result
      = .ok ("T", 180000)
    ∧ (fetchGo 0 (fun _ => Except.ok ("T", (180000 : Int))) ⟨none, none⟩ 0
        [.http 200 (.jobCards [])]).events
      = [.refresh true, .fetchSend "T" (some 180000)]
    ∧ ((0 : Int) > 180000 - guardMarginMs) := by
  decide

/-! ## C6: extraction retry policy -/

lemma extractGo_nav_bound (attempts : List ExtractAttempt) :
    ∀ rc : Nat, rc ≤ extractMaxRetries →
      countNavE (extractGo rc attempts).events ≤ (extractMaxRetries + 1) - rc := by
  induction attempts with
  | nil =>
    intro rc h
    simp [extractGo, countNavE]
  | cons a rest ih =>
    intro rc h
    cases hf : a.found with
    | none =>
      simp [extractGo, hf, countNavE, isNavEv]
      omega
    | some p =>
      rcases p with ⟨tok, expOpt⟩
      cases expOpt with
      | none =>
        simp [extractGo, hf, countNavE, isNavEv]
        omega
      | some expMs =>
        by_cases h1 : expMs - a.now ≤ 0
        · by_cases h2 : rc < extractMaxRetries
          · have hrec := ih (rc + 1) (by omega)
            simp [extractGo, hf, h1, h2, countNavE, isNavEv, List.countP_append] at hrec ⊢
            omega
          · simp [extractGo, hf, h1, h2, countNavE, isNavEv]
            omega
        · by_cases h3 : expMs - a.now < nearExpiryWindowMs
          · by_cases h2 : rc < extractMaxRetries
            · have hrec := ih (rc + 1) (by omega)
              simp [extractGo, hf, h1, h3, h2, countNavE, isNavEv, List.countP_append] at hrec ⊢
              omega
            · simp [extractGo, hf, h1, h3, h2, countNavE, isNavEv]
              omega
          · simp [extractGo, hf, h1, h3, countNavE, isNavEv]
            omega

lemma extractGo_wait_navs (attempts : List ExtractAttempt) :
    ∀ rc : Nat, (extractGo rc attempts).result ≠ .error .outOfAttempts →
      countWait30 (extractGo rc attempts).events + 1
        = countNavE (extractGo rc attempts).events := by
  induction attempts with
  | nil =>
    intro rc h
    simp [extractGo] at h
  | cons a rest ih =>
    intro rc h
    cases hf : a.found with
    | none =>
      simp [extractGo, hf, countNavE, countWait30, isNavEv, isWait30Ev]
    | some p =>
      rcases p with ⟨tok, expOpt⟩
      cases expOpt with
      | none =>
        simp [extractGo, hf, countNavE, countWait30, isNavEv, isWait30Ev]
      | some expMs =>
        by_cases h1 : expMs - a.now ≤ 0
        · by_cases h2 : rc < extractMaxRetries
          · have hres : (extractGo rc (a :: rest)).result = (extractGo (rc + 1) rest).result := by
              simp [extractGo, hf, h1, h2]
            rw [hres] at h
            have hrec := ih (rc + 1) h
            simp [extractGo, hf, h1, h2, countNavE, countWait30, isNavEv, isWait30Ev,
              List.countP_append] at hrec ⊢
            omega
          · simp [extractGo, hf, h1, h2, countNavE, countWait30, isNavEv, isWait30Ev]
        · by_cases h3 : expMs - a.now < nearExpiryWindowMs
          · by_cases h2 : rc < extractMaxRetries
            · have hres : (extractGo rc (a :: rest)).result = (extractGo (rc + 1) rest).result := by
                simp [extractGo, hf, h1, h3, h2]
              rw [hres] at h
              have hrec := ih (rc + 1) h
              simp [extractGo, hf, h1, h3, h2, countNavE, countWait30, isNavEv, isWait30Ev,
                List.countP_append] at hrec ⊢
              omega
            · simp [extractGo, hf, h1, h3, h2, countNavE, countWait30, isNavEv, isWait30Ev]
          · simp [extractGo, hf, h1, h3, countNavE, countWait30, isNavEv, isWait30Ev]

/-- C6 (amended): extraction performs at most `maxRetries = 3` retries
(four attempts); every retry is preceded by a fixed 30-second wait; a
candidate that is already expired or within the 5-minute near-expiry
window is treated as a failure and retried while retries remain, each
retry being a fresh page navigation in the SAME browser session (not a
fresh browser session, see `extract_freshSession_counterexample`); and
on the final retry a soon-to-expire candidate is accepted as a last
resort while an already-expired one still fails. -/
theorem extract_retry_policy :
    (∀ attempts : List ExtractAttempt,
      countNavE (extractGo 0 attempts).events ≤ extractMaxRetries + 1)
    ∧ (∀ attempts : List ExtractAttempt,
      (extractGo 0 attempts).result ≠ .error .outOfAttempts →
      countWait30 (extractGo 0 attempts).events + 1
        = countNavE (extractGo 0 attempts).events)
    ∧ (∀ (rc : Nat) (nw expMs : Int) (tok : String) (vs : Option Nat)
        (rest : List ExtractAttempt),
      rc < extractMaxRetries →
      (expMs - nw ≤ 0 ∨ (0 < expMs - nw ∧ expMs - nw < nearExpiryWindowMs)) →
      extractGo rc (⟨nw, some (tok, some expMs), vs⟩ :: rest)
        = ⟨[.navigate, .wait 15000, .wait 30000] ++ (extractGo (rc + 1) rest).events,
            (extractGo (rc + 1) rest).result⟩)
    ∧ (∀ (nw expMs : Int) (tok : String) (vs : Option Nat) (rest : List ExtractAttempt),
      0 < expMs - nw → expMs - nw < nearExpiryWindowMs →
      (extractGo extractMaxRetries (⟨nw, some (tok, some expMs), vs⟩ :: rest)).result
        = .ok (tok, expMs))
    ∧ (∀ (nw expMs : Int) (tok : String) (vs : Option Nat) (rest : List ExtractAttempt),
      expMs - nw ≤ 0 →
      (extractGo extractMaxRetries (⟨nw, some (tok, some expMs), vs⟩ :: rest)).result
        = .error .retriesExhausted) := by
  refine ⟨?_, ?_, ?_, ?_, ?_⟩
  · intro attempts
    have := extractGo_nav_bound attempts 0 (by omega)
    omega
  · intro attempts h
    exact extractGo_wait_navs attempts 0 h
  · intro rc nw expMs tok vs rest hrc hcase
    rcases hcase with h1 | ⟨h1, h2⟩
    · simp [extractGo, h1, hrc]
    · have h1' : ¬ (expMs - nw ≤ 0) := by omega
      simp [extractGo, h1', h2, hrc]
  · intro nw expMs tok vs rest h1 h2
    have h1' : ¬ (expMs - nw ≤ 0) := by omega
    simp [extractGo, h1', h2]
  · intro nw expMs tok vs rest h1
    simp [extractGo, h1]

/-- Witness for C6's amended theorem: one near-expiry attempt followed
by a good one retries exactly once with a 30-second wait; a
soon-to-expire candidate at the final retry is accepted; an expired one
at the final retry fails. -/
theorem extract_retry_policy_witness :
    ((extractGo 0 [⟨0, some ("T1", some 200000), some 200⟩,
        ⟨0, some ("T2", some 10000000), some 200⟩]).result ≠ .error .outOfAttempts)
    ∧ countWait30 (extractGo 0 [⟨0, some ("T1", some 200000), some 200⟩,
        ⟨0, some ("T2", some 10000000), some 200⟩]).events + 1
      = countNavE (extractGo 0 [⟨0, some ("T1", some 200000), some 200⟩,
        ⟨0, some ("T2", some 10000000), some 200⟩]).events
    ∧ extractGo 0 (⟨0, some ("T1", some 200000), some 200⟩ ::
        [⟨0, some ("T2", some 10000000), some 200⟩])
      = ⟨[.navigate, .wait 15000, .wait 30000]
          ++ (extractGo 1 [⟨0, some ("T2", some 10000000), some 200⟩]).events,
          (extractGo 1 [⟨0, some ("T2", some 10000000), some 200⟩]).result⟩
    ∧ (extractGo extractMaxRetries [⟨0, some ("T3", some 180000), some 200⟩]).result
      = .ok ("T3", 180000)
    ∧ (extractGo extractMaxRetries [⟨0, some ("T4", some (-5)), some 200⟩]).result
      = .error .retriesExhausted := by
  have hne : (extractGo 0 [⟨0, some ("T1", some 200000), some 200⟩,
      ⟨0, some ("T2", some 10000000), some 200⟩]).result ≠ .error .outOfAttempts := by decide
  refine ⟨hne, extract_retry_policy.2.1 _ hne, ?_, ?_, ?_⟩
  · exact extract_retry_policy.2.2.1 0 0 200000 "T1" (some 200)
      [⟨0, some ("T2", some 10000000), some 200⟩] (by decide)
      (Or.inr ⟨by decide, by decide⟩)
  · exact extract_retry_policy.2.2.2.1 0 180000 "T3" (some 200) [] (by decide) (by decide)
  · exact extract_retry_policy.2.2.2.2 0 (-5) "T4" (some 200) [] (by decide)

/-- C6 counterexample: a retried extraction re-navigates with the same
browser session — two attempts in one steady-state refresh launch no
new browser at all (and a cold refresh launches exactly one for both
attempts), refuting "a fresh browser session each attempt". -/
theorem extract_freshSession_counterexample :
    countNavE (refreshAuthTokenRun true [⟨0, some ("T1", some 200000), some 200⟩,
        ⟨0, some ("T2", some 10000000), some 200⟩]).events = 2
    ∧ countLaunch (refreshAuthTokenRun true [⟨0, some ("T1", some 200000), some 200⟩,
        ⟨0, some ("T2", some 10000000), some 200⟩]).events = 0
    ∧ countLaunch (refreshAuthTokenRun false [⟨0, some ("T1", some 200000), some 200⟩,
        ⟨0, some ("T2", some 10000000), some 200⟩]).events = 1
    ∧ (refreshAuthTokenRun true [⟨0, some ("T1", some 200000), some 200⟩,
        ⟨0, some ("T2", some 10000000), some 200⟩]).result = .ok ("T2", 10000000) := by
  decide

/-! ## C3: live verification of extracted credentials -/

/-- C3 counterexample: in auto-token-monitor.js the extraction installs
and returns a candidate although its live test observed HTTP 500 (the
`testToken` outcome is ignored), and a candidate with undecodable
claims is returned without any verification call at all. -/
theorem extract_unverified_counterexample :
    (extractGo 0 [⟨0, some ("T", some 10000000), some 500⟩]).result = .ok ("T", 10000000)
    ∧ (extractGo 0 [⟨0, some ("T", some 10000000), some 500⟩]).events
      = [.navigate, .wait 15000, .testTok (some 500)]
    ∧ (extractGo 0 [⟨0, some ("T", none), some 500⟩]).result = .ok ("T", 59 * 60 * 1000)
    ∧ countTestTok (extractGo 0 [⟨0, some ("T", none), some 500⟩]).events = 0 := by
  decide

/-- Environment of one iteration of `getValidToken`'s retry loop
(token-extractor.js lines 253-303): whether `initializeFreshBrowser`
succeeded, the `extractAuthToken` outcome, and the HTTP status observed
by `validateTokenWithServer` (`none` = network error during the
validation call; the credential is valid only when the status is
exactly 200). -/
structure GVAttempt where
  initOk : Bool
  extract : Except Unit String
  validateStatus : Option Nat
  deriving DecidableEq, Repr

/-- `getValidToken(maxRetries = 3)`. -/
def gvMaxRetries : Nat := 3

/-- The while-loop of `getValidToken`: `done` counts finished attempts.
Each iteration opens a fresh browser, extracts a candidate, and
validates it against the live endpoint; the candidate is returned only
when validation observed status 200.  Any throw or failed validation
moves on to the next attempt; when `gvMaxRetries` attempts are
exhausted the function throws.  An empty environment list is an
artificial cut-off of the model and also yields an error. -/
def getValidTokenGo : Nat → List GVAttempt → Except Unit String
  | _, [] => .error ()
  | done, e :: rest =>
    if done < gvMaxRetries then
      if e.initOk then
        match e.extract with
        | .ok tok =>
          if e.validateStatus = some 200 then .ok tok
          else getValidTokenGo (done + 1) rest
        | .error _ => getValidTokenGo (done + 1) rest
      else getValidTokenGo (done + 1) rest
    else .error ()

/-- C3 (amended): every credential returned by
token-extractor.js `getValidToken` comes from an attempt whose browser
launch succeeded, whose extraction produced exactly that credential,
and whose live verification call returned status 200 — that path never
hands back an unverified credential.  (The parallel extraction path in
auto-token-monitor.js does hand back unverified credentials, see
`extract_unverified_counterexample`.) -/
theorem getValidToken_only_verified :
    ∀ (envs : List GVAttempt) (done : Nat) (tok : String),
      getValidTokenGo done envs = .ok tok →
      ∃ e ∈ envs, e.initOk = true ∧ e.extract = .ok tok ∧ e.validateStatus = some 200 := by
  intro envs
  induction envs with
  | nil =>
    intro done tok h
    simp [getValidTokenGo] at h
  | cons e rest ih =>
    intro done tok h
    by_cases hd : done < gvMaxRetries
    · by_cases hi : e.initOk
      · cases hx : e.extract with
        | ok t =>
          by_cases hv : e.validateStatus = some 200
          · simp [getValidTokenGo, hd, hi, hx, hv] at h
            exact ⟨e, by simp, hi, by rw [hx, h], hv⟩
          · simp [getValidTokenGo, hd, hi, hx, hv] at h
            obtain ⟨e', he', hrest⟩ := ih (done + 1) tok h
            exact ⟨e', by simp [he'], hrest⟩
        | error u =>
          simp [getValidTokenGo, hd, hi, hx] at h
          obtain ⟨e', he', hrest⟩ := ih (done + 1) tok h
          exact ⟨e', by simp [he'], hrest⟩
      · simp [getValidTokenGo, hd, hi] at h
        obtain ⟨e', he', hrest⟩ := ih (done + 1) tok h
        exact ⟨e', by simp [he'], hrest⟩
    · simp [getValidTokenGo, hd] at h

/-- Witness for C3's amended theorem: a first failing-validation
attempt followed by a verified one returns the verified credential. -/
theorem getValidToken_only_verified_witness :
    getValidTokenGo 0 [⟨true, .ok "BAD", some 403⟩, ⟨true, .ok "TOK", some 200⟩] = .ok "TOK"
    ∧ ∃ e ∈ [(⟨true, .ok "BAD", some 403⟩ : GVAttempt), ⟨true, .ok "TOK", some 200⟩],
        e.initOk = true ∧ e.extract = .ok "TOK" ∧ e.validateStatus = some 200 := by
  have h : getValidTokenGo 0 [⟨true, .ok "BAD", some 403⟩, ⟨true, .ok "TOK", some 200⟩]
      = .ok "TOK" := by decide
  exact ⟨h, getValidToken_only_verified _ 0 "TOK" h⟩

/-! ## C8: Telegram dispatcher rate-limit handling -/

/-- Outcome of one Telegram `sendMessage` POST: `netError` = the fetch
promise rejected (the function-level catch then ends the whole batch);
`http status bodyOk` = an HTTP response with the given status and, for
2xx responses, the parsed body's `ok` flag (checked only for
logging). -/
inductive TgResp where
  | netError
  | http (status : Nat) (bodyOk : Bool)
  deriving DecidableEq, Repr

/-- Observable events of the dispatcher: the send attempt for the job
at a batch index, and `setTimeout` pauses (10 s rate-limit cooldown,
2 s inter-send delay). -/
inductive TgEv where
  | send (idx : Nat)
  | wait (ms : Int)
  deriving DecidableEq, Repr

/-- `MAX_JOBS_PER_ALERT = 999`. -/
def maxJobsPerAlert : Nat := 999

/-- The send loop of `sendTelegramAlert` (auto-token-monitor.js lines
589-631), as its event trace.  `n` is the batch length and `i` the
loop index.  One response is consumed per fetch.  A 429 response waits
10 seconds and retries the same index (`i--; continue`).  Any other
non-2xx response moves on to the next index with no delay
(`continue`).  A 2xx response parses the body, then waits 2 seconds
before the next send when more items remain.  A rejected fetch throws
to the function's catch, ending the batch.  An exhausted response list
cuts the model off. -/
def sendLoop (n : Nat) : Nat → List TgResp → List TgEv
  | _, [] => []
  | i, r :: rest =>
    if i < n ∧ i < maxJobsPerAlert then
      match r with
      | .netError => [TgEv.send i]
      | .http status _ =>
        if status = 429 then
          TgEv.send i :: TgEv.wait 10000 :: sendLoop n i rest
        else if ¬ (200 ≤ status ∧ status < 300) then
          TgEv.send i :: sendLoop n (i + 1) rest
        else if i < n - 1 ∧ i < maxJobsPerAlert - 1 then
          TgEv.send i :: TgEv.wait 2000 :: sendLoop n (i + 1) rest
        else
          TgEv.send i :: sendLoop n (i + 1) rest
    else []

/-- The same loop, recording for each send attempt the batch index it
targeted and the response it got. -/
def sendAttempts (n : Nat) : Nat → List TgResp → List (Nat × TgResp)
  | _, [] => []
  | i, r :: rest =>
    if i < n ∧ i < maxJobsPerAlert then
      match r with
      | .netError => [(i, r)]
      | .http status _ =>
        if status = 429 then
          (i, r) :: sendAttempts n i rest
        else
          (i, r) :: sendAttempts n (i + 1) rest
    else []

def sendIdxs (tr : List TgEv) : List Nat :=
  tr.filterMap (fun e => match e with | .send i => some i | _ => none)

/-- 429 detection, as in `if (telegramResponse.status === 429)`. -/
def tgIsRL : TgResp → Bool
  | .http status _ => decide (status = 429)
  | _ => false

/-- Relation between consecutive send attempts: after a 429 the same
index is resent; after any other response the loop advances to the
next index. -/
def tgStep (p q : Nat × TgResp) : Prop :=
  q.1 = if tgIsRL p.2 then p.1 else p.1 + 1

lemma sendAttempts_head (n i : Nat) (resps : List TgResp) :
    ∀ p ∈ (sendAttempts n i resps).head?, p.1 = i := by
  cases resps with
  | nil => intro p hp; simp [sendAttempts] at hp
  | cons r rest =>
    intro p hp
    by_cases hc : i < n ∧ i < maxJobsPerAlert
    · cases r with
      | netError =>
        simp [sendAttempts, hc] at hp
        subst hp
        rfl
      | http status b =>
        by_cases h4 : status = 429
        · simp [sendAttempts, hc, h4] at hp
          subst hp
          rfl
        · simp [sendAttempts, hc, h4] at hp
          subst hp
          rfl
    · simp [sendAttempts, hc] at hp

lemma sendAttempts_chain (n : Nat) (resps : List TgResp) :
    ∀ i, List.Chain' tgStep (sendAttempts n i resps) := by
  induction resps with
  | nil => intro i; simp [sendAttempts]
  | cons r rest ih =>
    intro i
    by_cases hc : i < n ∧ i < maxJobsPerAlert
    · cases r with
      | netError => simp [sendAttempts, hc]
      | http status b =>
        by_cases h4 : status = 429
        · simp only [sendAttempts, hc, h4, if_true, if_pos, and_self]
          rw [List.chain'_cons']
          refine ⟨?_, by simpa [h4] using ih i⟩
          intro q hq
          have := sendAttempts_head n i rest q hq
          simp [tgStep, tgIsRL, h4, this]
        · simp only [sendAttempts, hc, h4, and_self, if_true, if_false, ite_false]
          rw [List.chain'_cons']
          refine ⟨?_, by simpa [h4] using ih (i + 1)⟩
          intro q hq
          have := sendAttempts_head n (i + 1) rest q hq
          simp [tgStep, tgIsRL, h4, this]
    · simp [sendAttempts, hc]

lemma sendIdxs_cons_send (i : Nat) (tr : List TgEv) :
    sendIdxs (TgEv.send i :: tr) = i :: sendIdxs tr := by
  simp [sendIdxs]

lemma sendIdxs_cons_wait (w : Int) (tr : List TgEv) :
    sendIdxs (TgEv.wait w :: tr) = sendIdxs tr := by
  simp [sendIdxs]

lemma sendIdxs_eq_attempts (n : Nat) (resps : List TgResp) :
    ∀ i, sendIdxs (sendLoop n i resps) = (sendAttempts n i resps).map Prod.fst := by
  induction resps with
  | nil => intro i; simp [sendLoop, sendAttempts, sendIdxs]
  | cons r rest ih =>
    intro i
    by_cases hc : i < n ∧ i < maxJobsPerAlert
    · cases r with
      | netError => simp [sendLoop, sendAttempts, sendIdxs, hc]
      | http status b =>
        by_cases h4 : status = 429
        · have hl : sendLoop n i (TgResp.http status b :: rest)
              = TgEv.send i :: TgEv.wait 10000 :: sendLoop n i rest := by
            simp [sendLoop, hc, h4]
          have ha : sendAttempts n i (TgResp.http status b :: rest)
              = (i, TgResp.http status b) :: sendAttempts n i rest := by
            simp [sendAttempts, hc, h4]
          rw [hl, ha, sendIdxs_cons_send, sendIdxs_cons_wait, ih i, List.map_cons]
        · have ha : sendAttempts n i (TgResp.http status b :: rest)
              = (i, TgResp.http status b) :: sendAttempts n (i + 1) rest := by
            simp [sendAttempts, hc, h4]
          by_cases hok : 200 ≤ status ∧ status < 300
          · by_cases hd : i < n - 1 ∧ i < maxJobsPerAlert - 1
            · have hl : sendLoop n i (TgResp.http status b :: rest)
                  = TgEv.send i :: TgEv.wait 2000 :: sendLoop n (i + 1) rest := by
                simp [sendLoop, hc, h4, hok, hd]
              rw [hl, ha, sendIdxs_cons_send, sendIdxs_cons_wait, ih (i + 1), List.map_cons]
            · have hl : sendLoop n i (TgResp.http status b :: rest)
                  = TgEv.send i :: sendLoop n (i + 1) rest := by
                simp [sendLoop, hc, h4, hok, hd]
              rw [hl, ha, sendIdxs_cons_send, ih (i + 1), List.map_cons]
          · have hl : sendLoop n i (TgResp.http status b :: rest)
                = TgEv.send i :: sendLoop n (i + 1) rest := by
              simp [sendLoop, hc, h4, hok]
            rw [hl, ha, sendIdxs_cons_send, ih (i + 1), List.map_cons]
    · simp [sendLoop, sendAttempts, sendIdxs, hc]

/-- C8: dispatcher behaviour on provider responses.  In the concrete
scenario (three items, provider answers OK, 429, OK, OK) the trace is:
send item 1, 2-second pacing delay, send item 2, 10-second cooldown,
resend item 2, pacing delay, send item 3 — item 1 is sent exactly
once.  In general consecutive send attempts always target the same
index exactly after a 429 response and the next index otherwise (so
previously delivered items are never resent), a 429 retries the same
item after a 10-second cooldown, and a non-429 failure response moves
on to the next item instead of aborting the batch. -/
theorem dispatcher_rateLimit_retry :
    (sendLoop 3 0 [.http 200 true, .http 429 true, .http 200 true, .http 200 true]
      = [.send 0, .wait 2000, .send 1, .wait 10000, .send 1, .wait 2000, .send 2])
    ∧ (sendIdxs (sendLoop 3 0
        [.http 200 true, .http 429 true, .http 200 true, .http 200 true])).count 0 = 1
    ∧ (∀ (n i : Nat) (resps : List TgResp), List.Chain' tgStep (sendAttempts n i resps))
    ∧ (∀ (n i : Nat) (resps : List TgResp),
        sendIdxs (sendLoop n i resps) = (sendAttempts n i resps).map Prod.fst)
    ∧ (∀ (n i : Nat) (b : Bool) (rest : List TgResp), i < n → i < maxJobsPerAlert →
        sendLoop n i (.http 429 b :: rest) = .send i :: .wait 10000 :: sendLoop n i rest)
    ∧ (∀ (n i status : Nat) (b : Bool) (rest : List TgResp), i < n → i < maxJobsPerAlert →
        ¬ (200 ≤ status ∧ status < 300) → status ≠ 429 →
        sendLoop n i (.http status b :: rest) = .send i :: sendLoop n (i + 1) rest) := by
  refine ⟨by decide, by decide, fun n i resps => sendAttempts_chain n resps i,
    fun n i resps => sendIdxs_eq_attempts n resps i, ?_, ?_⟩
  · intro n i b rest hn hm
    simp [sendLoop, hn, hm]
  · intro n i status b rest hn hm hok h4
    simp [sendLoop, hn, hm, hok, h4]

/-- Witness for C8: the 429 step and the failure-continue step at
concrete inputs. -/
theorem dispatcher_rateLimit_retry_witness :
    ((0 : Nat) < 2 ∧ (0 : Nat) < maxJobsPerAlert ∧ ¬ (200 ≤ 500 ∧ (500 : Nat) < 300)
      ∧ (500 : Nat) ≠ 429)
    ∧ sendLoop 2 0 (.http 429 true :: [.http 200 true, .http 200 true])
      = .send 0 :: .wait 10000 :: sendLoop 2 0 [.http 200 true, .http 200 true]
    ∧ sendLoop 2 0 (.http 500 true :: [.http 200 true])
      = .send 0 :: sendLoop 2 1 [.http 200 true] := by
  refine ⟨by decide, ?_, ?_⟩
  · exact dispatcher_rateLimit_retry.2.2.2.2.1 2 0 true [.http 200 true, .http 200 true]
      (by decide) (by decide)
  · exact dispatcher_rateLimit_retry.2.2.2.2.2 2 0 500 true [.http 200 true]
      (by decide) (by decide) (by decide) (by decide)

/-! ## C9: no single-flight on concurrent refresh -/

/-- The body of `refreshAuthToken` (auto-token-monitor.js lines
430-446) as atomic steps: a conditional browser launch, then one
browser extraction.  The source consults no in-flight flag, lock, or
shared promise before starting the extraction. -/
inductive RInstr where
  | initBrowser
  | extractTok
  deriving DecidableEq, Repr

def refreshBody : List RInstr := [.initBrowser, .extractTok]

def isExtractInstr : RInstr → Bool
  | .extractTok => true
  | _ => false

/-- Interleaving state of several concurrent `refreshAuthToken` calls:
how many extractions have started, and each caller's remaining
instructions. -/
structure CncState where
  extractions : Nat
  threads : List (List RInstr)
  deriving DecidableEq, Repr

/-- Run one step of thread `t`: returns the new thread list and how
many extractions started (0 or 1). -/
def stepThreads : List (List RInstr) → Nat → List (List RInstr) × Nat
  | [], _ => ([], 0)
  | th :: rest, 0 =>
    match th with
    | [] => (th :: rest, 0)
    | RInstr.initBrowser :: tr => (tr :: rest, 0)
    | RInstr.extractTok :: tr => (tr :: rest, 1)
  | th :: rest, t + 1 =>
    (th :: (stepThreads rest t).1, (stepThreads rest t).2)

def cncStep (s : CncState) (t : Nat) : CncState :=
  ⟨s.extractions + (stepThreads s.threads t).2, (stepThreads s.threads t).1⟩

/-- Run a schedule: the list of thread indices chosen at each step. -/
def cncRun (s : CncState) (sched : List Nat) : CncState := sched.foldl cncStep s

/-- N concurrent `refreshAuthToken` calls about to start. -/
def cncInit (n : Nat) : CncState := ⟨0, List.replicate n refreshBody⟩

def pendingExtractions (ths : List (List RInstr)) : Nat :=
  (ths.map (fun th => th.countP isExtractInstr)).sum

def allThreadsDone (ths : List (List RInstr)) : Bool := ths.all (·.isEmpty)

lemma stepThreads_pending (ths : List (List RInstr)) :
    ∀ t : Nat, pendingExtractions (stepThreads ths t).1 + (stepThreads ths t).2
      = pendingExtractions ths := by
  induction ths with
  | nil => intro t; simp [stepThreads, pendingExtractions]
  | cons th rest ih =>
    intro t
    cases t with
    | zero =>
      cases th with
      | nil => simp [stepThreads, pendingExtractions]
      | cons ins tr =>
        cases ins with
        | initBrowser =>
          simp [stepThreads, pendingExtractions, isExtractInstr, List.countP_cons]
        | extractTok =>
          simp [stepThreads, pendingExtractions, isExtractInstr, List.countP_cons]
          omega
    | succ u =>
      have := ih u
      simp [stepThreads, pendingExtractions] at this ⊢
      omega

lemma cncRun_inv (sched : List Nat) :
    ∀ s : CncState, (cncRun s sched).extractions + pendingExtractions (cncRun s sched).threads
      = s.extractions + pendingExtractions s.threads := by
  induction sched with
  | nil => intro s; rfl
  | cons t rest ih =>
    intro s
    have h1 := ih (cncStep s t)
    have h2 := stepThreads_pending s.threads t
    have hru : cncRun s (t :: rest) = cncRun (cncStep s t) rest := rfl
    have h3 : (cncStep s t).extractions = s.extractions + (stepThreads s.threads t).2 := rfl
    have h4 : (cncStep s t).threads = (stepThreads s.threads t).1 := rfl
    rw [hru]
    rw [h3, h4] at h1
    omega

lemma pending_cncInit (n : Nat) : pendingExtractions (cncInit n).threads = n := by
  induction n with
  | zero => rfl
  | succ m ih =>
    have hth : (cncInit (m + 1)).threads = refreshBody :: (cncInit m).threads := by
      simp [cncInit, List.replicate_succ]
    rw [hth]
    have hcount : refreshBody.countP isExtractInstr = 1 := by decide
    have ih' : (List.map (fun th => th.countP isExtractInstr) (cncInit m).threads).sum = m := ih
    simp only [pendingExtractions, List.map_cons, List.sum_cons, hcount, ih']
    omega

lemma allDone_pending (ths : List (List RInstr)) :
    allThreadsDone ths = true → pendingExtractions ths = 0 := by
  induction ths with
  | nil => intro _; rfl
  | cons th rest ih =>
    intro h
    simp only [allThreadsDone, List.all_cons, Bool.and_eq_true] at h
    have h1 : th = [] := List.isEmpty_iff.mp h.1
    have h2 := ih (by simp [allThreadsDone, h.2])
    simp [pendingExtractions, h1] at h2 ⊢
    exact h2

/-- C9 (amended): `refreshAuthToken` has no single-flight discipline —
each of N concurrent calls runs its own browser extraction under every
interleaving, so any completed schedule of N concurrent calls starts
exactly N extractions, not one. -/
theorem concurrent_refresh_no_singleflight (n : Nat) (sched : List Nat) :
    allThreadsDone (cncRun (cncInit n) sched).threads = true →
    (cncRun (cncInit n) sched).extractions = n := by
  intro h
  have hinv := cncRun_inv sched (cncInit n)
  have hdone := allDone_pending _ h
  have hinit : pendingExtractions (cncInit n).threads = n := pending_cncInit n
  have h0 : (cncInit n).extractions = 0 := rfl
  rw [h0, hinit] at hinv
  omega

/-- C9 counterexample: two concurrent refresh calls, run to
completion under an interleaved schedule, start two extractions — not
the single extraction required by the single-flight claim. -/
theorem concurrent_refresh_counterexample :
    allThreadsDone (cncRun (cncInit 2) [0, 1, 0, 1]).threads = true
    ∧ (cncRun (cncInit 2) [0, 1, 0, 1]).extractions = 2
    ∧ (2 : Nat) ≠ 1 := by
  decide

/-- Witness for C9's amended theorem: three concurrent calls under an
interleaved schedule start three extractions. -/
theorem concurrent_refresh_no_singleflight_witness :
    allThreadsDone (cncRun (cncInit 3) [0, 1, 0, 2, 1, 2]).threads = true
    ∧ (cncRun (cncInit 3) [0, 1, 0, 2, 1, 2]).extractions = 3 := by
  have h : allThreadsDone (cncRun (cncInit 3) [0, 1, 0, 2, 1, 2]).threads = true := by decide
  exact ⟨h, concurrent_refresh_no_singleflight 3 [0, 1, 0, 2, 1, 2] h⟩

/-! ## C10: decodeJWT -/

/-- JSON values as produced by `JSON.parse`; number literals keep
their source text. -/
inductive JsonVal where
  | null
  | bool (b : Bool)
  | num (lit : String)
  | str (s : String)
  | arr (xs : List JsonVal)
  | obj (fields : List (String × JsonVal))
  deriving Repr

/-- Value of one base64 alphabet character; Node's decoder accepts
both the standard and the URL-safe alphabet. -/
def b64Val (c : Char) : Option Nat :=
  if 'A' ≤ c ∧ c ≤ 'Z' then some (c.toNat - 65)
  else if 'a' ≤ c ∧ c ≤ 'z' then some (c.toNat - 97 + 26)
  else if '0' ≤ c ∧ c ≤ '9' then some (c.toNat - 48 + 52)
  else if c = '+' ∨ c = '-' then some 62
  else if c = '/' ∨ c = '_' then some 63
  else none

/-- The 6-bit groups of a base64 input, as in Node's forgiving
decoder (`Buffer.from(s, 'base64')` never throws): characters from the
first '=' padding onward are dropped and non-alphabet characters are
skipped. -/
def b64Sextets (s : String) : List Nat :=
  (s.toList.takeWhile (fun c => c ≠ '=')).filterMap b64Val

/-- Regroup 6-bit values into bytes; a trailing group of fewer than
two sextets contributes no byte. -/
def b64Bytes : List Nat → List Nat
  | a :: b :: c :: d :: rest =>
    (a * 4 + b / 16) :: ((b % 16) * 16 + c / 4) :: ((c % 4) * 64 + d) :: b64Bytes rest
  | [a, b] => [a * 4 + b / 16]
  | [a, b, c] => [a * 4 + b / 16, (b % 16) * 16 + c / 4]
  | _ => []

/-- The U+FFFD replacement character used for malformed UTF-8. -/
def replChar : Char := Char.ofNat 0xFFFD

def validScalar (n : Nat) : Bool := decide (n < 0xD800 ∨ (0xE000 ≤ n ∧ n ≤ 0x10FFFF))

/-- Decode a UTF-8 byte sequence into characters, substituting U+FFFD
for malformed sequences, as `Buffer.toString('utf8')` does (it never
throws).  The fuel is the byte count. -/
def utf8Decode : Nat → List Nat → List Char
  | 0, _ => []
  | _ + 1, [] => []
  | fuel + 1, b :: rest =>
    if b < 0x80 then Char.ofNat b :: utf8Decode fuel rest
    else if 0xC2 ≤ b ∧ b ≤ 0xDF then
      match rest with
      | b2 :: rest2 =>
        if 0x80 ≤ b2 ∧ b2 ≤ 0xBF then
          Char.ofNat ((b - 0xC0) * 64 + (b2 - 0x80)) :: utf8Decode fuel rest2
        else replChar :: utf8Decode fuel rest
      | [] => [replChar]
    else if 0xE0 ≤ b ∧ b ≤ 0xEF then
      match rest with
      | b2 :: b3 :: rest3 =>
        if (0x80 ≤ b2 ∧ b2 ≤ 0xBF) ∧ (0x80 ≤ b3 ∧ b3 ≤ 0xBF) then
          (if validScalar ((b - 0xE0) * 4096 + (b2 - 0x80) * 64 + (b3 - 0x80)) then
            Char.ofNat ((b - 0xE0) * 4096 + (b2 - 0x80) * 64 + (b3 - 0x80))
          else replChar) :: utf8Decode fuel rest3
        else replChar :: utf8Decode fuel rest
      | _ => [replChar]
    else if 0xF0 ≤ b ∧ b ≤ 0xF4 then
      match rest with
      | b2 :: b3 :: b4 :: rest4 =>
        if (0x80 ≤ b2 ∧ b2 ≤ 0xBF) ∧ (0x80 ≤ b3 ∧ b3 ≤ 0xBF) ∧ (0x80 ≤ b4 ∧ b4 ≤ 0xBF) then
          Char.ofNat ((b - 0xF0) * 262144 + (b2 - 0x80) * 4096 + (b3 - 0x80) * 64 + (b4 - 0x80))
            :: utf8Decode fuel rest4
        else replChar :: utf8Decode fuel rest
      | _ => [replChar]
    else replChar :: utf8Decode fuel rest

/-- `Buffer.from(seg, 'base64').toString('utf8')`: total, never
throws. -/
def bufFromBase64Utf8 (s : String) : String :=
  String.mk (utf8Decode ((b64Bytes (b64Sextets s)).length + 1) (b64Bytes (b64Sextets s)))

/-- JSON insignificant whitespace. -/
def jsonWsChar (c : Char) : Bool :=
  c == ' ' || c == '\t' || c == '\n' || c == '\r'

def skipWs (cs : List Char) : List Char := cs.dropWhile jsonWsChar

def hexVal (c : Char) : Option Nat :=
  if '0' ≤ c ∧ c ≤ '9' then some (c.toNat - 48)
  else if 'a' ≤ c ∧ c ≤ 'f' then some (c.toNat - 97 + 10)
  else if 'A' ≤ c ∧ c ≤ 'F' then some (c.toNat - 65 + 10)
  else none

/-- Parse a JSON string body after the opening quote: plain
characters, the short escapes, and \uXXXX; unescaped control
characters are rejected, as `JSON.parse` does.  Returns the content
and the remainder after the closing quote. -/
def pStringBody : Nat → List Char → Option (String × List Char)
  | 0, _ => none
  | _ + 1, [] => none
  | fuel + 1, c :: rest =>
    if c = '"' then some ("", rest)
    else if c = '\\' then
      match rest with
      | [] => none
      | e :: rest2 =>
        if e = 'u' then
          match rest2 with
          | h1 :: h2 :: h3 :: h4 :: rest3 =>
            match hexVal h1, hexVal h2, hexVal h3, hexVal h4 with
            | some v1, some v2, some v3, some v4 =>
              match pStringBody fuel rest3 with
              | some (s, rem) =>
                some (String.mk (Char.ofNat (v1 * 4096 + v2 * 256 + v3 * 16 + v4) :: s.toList), rem)
              | none => none
            | _, _, _, _ => none
          | _ => none
        else
          match
            (if e = '"' then some '"'
             else if e = '\\' then some '\\'
             else if e = '/' then some '/'
             else if e = 'b' then some (Char.ofNat 8)
             else if e = 'f' then some (Char.ofNat 12)
             else if e = 'n' then some (Char.ofNat 10)
             else if e = 'r' then some (Char.ofNat 13)
             else if e = 't' then some (Char.ofNat 9)
             else none) with
          | some ch =>
            match pStringBody fuel rest2 with
            | some (s, rem) => some (String.mk (ch :: s.toList), rem)
            | none => none
          | none => none
    else if c.toNat < 0x20 then none
    else
      match pStringBody fuel rest with
      | some (s, rem) => some (String.mk (c :: s.toList), rem)
      | none => none

def digitSpan (cs : List Char) : List Char × List Char :=
  (cs.takeWhile Char.isDigit, cs.dropWhile Char.isDigit)

/-- Parse a JSON number literal with the grammar of `JSON.parse`:
optional minus, an integer part with no leading zero, an optional
fraction, an optional exponent.  Returns the literal text. -/
def pNumber (cs : List Char) : Option (String × List Char) :=
  let sign : List Char × List Char :=
    match cs with
    | '-' :: t => (['-'], t)
    | _ => ([], cs)
  match sign.2 with
  | [] => none
  | c :: _ =>
    if ¬ c.isDigit then none
    else
      let ipart := (digitSpan sign.2).1
      let cs2 := (digitSpan sign.2).2
      if ipart.length > 1 ∧ ipart.head? = some '0' then none
      else
        let fr : List Char × List Char :=
          match cs2 with
          | '.' :: t =>
            if (digitSpan t).1.isEmpty then ([], cs2)
            else ('.' :: (digitSpan t).1, (digitSpan t).2)
          | _ => ([], cs2)
        let ex : List Char × List Char :=
          match fr.2 with
          | e :: t =>
            if e = 'e' ∨ e = 'E' then
              match t with
              | s :: t2 =>
                if s = '+' ∨ s = '-' then
                  if (digitSpan t2).1.isEmpty then ([], fr.2)
                  else (e :: s :: (digitSpan t2).1, (digitSpan t2).2)
                else if (digitSpan t).1.isEmpty then ([], fr.2)
                else (e :: (digitSpan t).1, (digitSpan t).2)
              | [] => ([], fr.2)
            else ([], fr.2)
          | [] => ([], fr.2)
        some (String.mk (sign.1 ++ ipart ++ fr.1 ++ ex.1), ex.2)

mutual

/-- Parse one JSON value; the fuel bounds nesting depth and is at
least the input length at the top-level call. -/
def pVal : Nat → List Char → Option (JsonVal × List Char)
  | 0, _ => none
  | fuel + 1, cs =>
    match skipWs cs with
    | [] => none
    | c :: rest =>
      if c = 'n' then
        match rest with
        | 'u' :: 'l' :: 'l' :: r => some (.null, r)
        | _ => none
      else if c = 't' then
        match rest with
        | 'r' :: 'u' :: 'e' :: r => some (.bool true, r)
        | _ => none
      else if c = 'f' then
        match rest with
        | 'a' :: 'l' :: 's' :: 'e' :: r => some (.bool false, r)
        | _ => none
      else if c = '"' then
        match pStringBody (rest.length + 1) rest with
        | some (s, r) => some (.str s, r)
        | none => none
      else if c = '[' then
        match skipWs rest with
        | ']' :: r => some (.arr [], r)
        | _ => pArrElems fuel rest []
      else if c = '{' then
        match skipWs rest with
        | '}' :: r => some (.obj [], r)
        | _ => pObjFields fuel rest []
      else if c = '-' ∨ c.isDigit then
        match pNumber (c :: rest) with
        | some (lit, r) => some (.num lit, r)
        | none => none
      else none

/-- Parse the comma-separated elements of a non-empty array. -/
def pArrElems : Nat → List Char → List JsonVal → Option (JsonVal × List Char)
  | 0, _, _ => none
  | fuel + 1, cs, acc =>
    match pVal fuel cs with
    | none => none
    | some (v, r) =>
      match skipWs r with
      | ',' :: r2 => pArrElems fuel r2 (acc ++ [v])
      | ']' :: r2 => some (.arr (acc ++ [v]), r2)
      | _ => none

/-- Parse the comma-separated key/value fields of a non-empty
object. -/
def pObjFields : Nat → List Char → List (String × JsonVal) → Option (JsonVal × List Char)
  | 0, _, _ => none
  | fuel + 1, cs, acc =>
    match skipWs cs with
    | '"' :: r =>
      match pStringBody (r.length + 1) r with
      | none => none
      | some (k, r2) =>
        match skipWs r2 with
        | ':' :: r3 =>
          match pVal fuel r3 with
          | none => none
          | some (v, r4) =>
            match skipWs r4 with
            | ',' :: r5 => pObjFields fuel r5 (acc ++ [(k, v)])
            | '}' :: r5 => some (.obj (acc ++ [(k, v)]), r5)
            | _ => none
        | _ => none
    | _ => none

end

/-- `JSON.parse`: parse one value and require only whitespace to
remain; every failure throws, modelled as `none`. -/
def jsonParse (s : String) : Option JsonVal :=
  match pVal (s.toList.length + 1) s.toList with
  | some (v, rest) => if (skipWs rest).isEmpty then some v else none
  | none => none

/-- JS `token.split('.')`: split into the (possibly empty) segments
between the dots. -/
def splitDots : List Char → List (List Char)
  | [] => [[]]
  | c :: rest =>
    if c = '.' then [] :: splitDots rest
    else
      match splitDots rest with
      | [] => [[c]]
      | p :: ps => (c :: p) :: ps

/-- `decodeJWT` (auto-token-monitor.js lines 183-195, duplicated in
src/unnamed/part_000 lines 1304-1316): split on '.'; anything other
than exactly three segments returns null; otherwise base64-decode the
middle segment, parse it as JSON inside the try, and return the
payload, any thrown parse error being caught and turned into null.  A
JS caller cannot distinguish the null returned on failure from a
parsed JSON null, so both are `JsonVal.null` here. -/
def decodeJWT (token : String) : JsonVal :=
  if (splitDots token.toList).length ≠ 3 then JsonVal.null
  else
    match jsonParse (bufFromBase64Utf8 (String.mk ((splitDots token.toList).getD 1 []))) with
    | some v => v
    | none => JsonVal.null

/-- C10: `decodeJWT` is total and never throws: for every input string
it returns the parsed claims when the input has exactly three
dot-separated segments whose middle segment base64-decodes to valid
JSON, and null in every other case — a different number of segments,
or a middle segment that fails to decode or parse.  Concretely, a
well-formed token yields its claims record, while a dotless string, a
token with an undecodable middle segment, and a four-segment string
all yield null. -/
theorem decodeJWT_total_dichotomy :
    (∀ s : String, (splitDots s.toList).length ≠ 3 → decodeJWT s = JsonVal.null)
    ∧ (∀ (s : String) (v : JsonVal), (splitDots s.toList).length = 3 →
        jsonParse (bufFromBase64Utf8 (String.mk ((splitDots s.toList).getD 1 []))) = some v →
        decodeJWT s = v)
    ∧ (∀ s : String, (splitDots s.toList).length = 3 →
        jsonParse (bufFromBase64Utf8 (String.mk ((splitDots s.toList).getD 1 []))) = none →
        decodeJWT s = JsonVal.null)
    ∧ decodeJWT "eyJhbGciOiJIUzI1NiJ9.eyJleHAiOjEyM30.sig"
        = .obj [("exp", .num "123")]
    ∧ decodeJWT "noDotsHere" = JsonVal.null
    ∧ decodeJWT "a.!!!.b" = JsonVal.null
    ∧ decodeJWT "a.b.c.d" = JsonVal.null := by
  refine ⟨?_, ?_, ?_, rfl, rfl, rfl, rfl⟩
  · intro s h
    unfold decodeJWT
    rw [if_pos h]
  · intro s v h3 hp
    unfold decodeJWT
    rw [if_neg (fun hne => hne h3), hp]
  · intro s h3 hp
    unfold decodeJWT
    rw [if_neg (fun hne => hne h3), hp]

/-- Witness for C10: a dotless string has one segment and decodes to
null; a three-segment token whose middle segment holds base64 JSON
decodes to its claims. -/
theorem decodeJWT_total_dichotomy_witness :
    ((splitDots "noDotsHere".toList).length ≠ 3 ∧ decodeJWT "noDotsHere" = JsonVal.null)
    ∧ ((splitDots "x.eyJleHAiOjEyM30.y".toList).length = 3
      ∧ jsonParse (bufFromBase64Utf8
          (String.mk ((splitDots "x.eyJleHAiOjEyM30.y".toList).getD 1 [])))
        = some (.obj [("exp", .num "123")])
      ∧ decodeJWT "x.eyJleHAiOjEyM30.y" = .obj [("exp", .num "123")]) := by
  have h1 : (splitDots "noDotsHere".toList).length ≠ 3 := by decide
  have h2 : (splitDots "x.eyJleHAiOjEyM30.y".toList).length = 3 := by decide
  have h3 : jsonParse (bufFromBase64Utf8
      (String.mk ((splitDots "x.eyJleHAiOjEyM30.y".toList).getD 1 [])))
      = some (.obj [("exp", .num "123")]) := rfl
  exact ⟨⟨h1, decodeJWT_total_dichotomy.1 "noDotsHere" h1⟩,
    ⟨h2, h3, decodeJWT_total_dichotomy.2.1 _ _ h2 h3⟩⟩
